import Mathlib

/-!
Verification of the EMCDScroll repository: a React infinite-scroll feed of
user profile cards (`src/UserFeed.tsx`, mounted by `src/main.tsx`).

The component keeps two pieces of state: an accumulated list of `User`
records and a boolean `loading` flag.  `fetchUsers` sets `loading` to
`true`, fetches a batch of ten records from a fixed endpoint, appends the
parsed records to the list, and clears the flag; a failed fetch or parse
aborts the remaining steps and propagates as a rejection.  An
`IntersectionObserver` callback (`handleObserver`) re-invokes `fetchUsers`
when the last rendered card enters the viewport; an effect keyed on the
user list re-attaches the observer to whichever card is currently last; a
mount-time effect performs the initial fetch.

The embedding below models component state explicitly, the asynchronous
body of `fetchUsers` as a state transformer together with the ordered
trace of primitive effects it performs, the overlapping-fetch behaviour as
a small-step transition system, and the render output as a list of nodes.
-/

/-- A user record as fetched from the API (the `User` type in
`UserFeed.tsx`): unique id (`login.uuid`), profile image URL
(`picture.large`), first/last name, and email. -/
structure User where
  uuid : String
  pictureLarge : String
  nameFirst : String
  nameLast : String
  email : String
  deriving DecidableEq, Repr

/-- The `UserFeed` component state: the accumulated sequence of users and
the loading flag. -/
structure FeedState where
  users : List User
  loading : Bool
  deriving DecidableEq, Repr

/-- The state produced by `useState` initialisers: empty list, flag off. -/
def initState : FeedState := { users := [], loading := false }

/-- The fixed batch size requested per fetch (`?results=10`). -/
def batchSize : Nat := 10

/-- The fixed endpoint queried by `fetchUsers`. -/
def apiURL : String := "https://randomuser.me/api/?results=10"

/-- The primitive effects performed by the body of `fetchUsers`, in
program order. -/
inductive Event where
  | setLoading (b : Bool)
  | request (url : String)
  | parse
  | append (batch : List User)
  deriving DecidableEq, Repr

/-- The outcome of one `fetchUsers` invocation: the resulting component
state, the ordered trace of effects it performed, and the propagated
rejection, if any. -/
structure FetchResult where
  state : FeedState
  events : List Event
  rejection : Option String
  deriving DecidableEq, Repr

/-- `fetchUsers` from `UserFeed.tsx`.  It sets the loading flag, issues the
request to `apiURL`; a rejection of the fetch or of response parsing
(modelled by the `resp` argument being an `Except.error`) skips every
remaining step and propagates, while a successful response is parsed and
its records appended via `setUsers (prev => [...prev, ...data.results])`,
after which the loading flag is cleared. -/
def fetchUsers (resp : Except String (List User)) (s : FeedState) : FetchResult :=
  let s1 : FeedState := { s with loading := true }
  match resp with
  | Except.error e =>
      { state := s1
        events := [Event.setLoading true, Event.request apiURL]
        rejection := some e }
  | Except.ok batch =>
      { state := { users := s1.users ++ batch, loading := false }
        events := [Event.setLoading true, Event.request apiURL, Event.parse,
                   Event.append batch, Event.setLoading false]
        rejection := none }

/-- The effect of one primitive event on the component state. -/
def applyEvent (s : FeedState) : Event → FeedState
  | Event.setLoading b => { s with loading := b }
  | Event.request _ => s
  | Event.parse => s
  | Event.append batch => { s with users := s.users ++ batch }

/-- Replay a trace of events from a state. -/
def runTrace (s : FeedState) (t : List Event) : FeedState :=
  t.foldl applyEvent s

/-- Claim C1: every successful `fetchUsers` invocation performs, in this
order: loading flag set to `true`, the request for a fixed batch of ten
records to the fixed endpoint, response parsing, appending the records to
the accumulated sequence, and loading flag set back to `false`; replaying
that trace reproduces the invocation's final state. -/
theorem C1_fetch_order (s : FeedState) (batch : List User) :
    (fetchUsers (Except.ok batch) s).events =
      [Event.setLoading true, Event.request apiURL, Event.parse,
       Event.append batch, Event.setLoading false] ∧
    apiURL = "https://randomuser.me/api/?results=" ++ toString batchSize ∧
    batchSize = 10 ∧
    runTrace s (fetchUsers (Except.ok batch) s).events =
      (fetchUsers (Except.ok batch) s).state := by
  refine ⟨rfl, rfl, rfl, rfl⟩

/-- A fixed sample record, used to instantiate theorems at concrete
inputs. -/
def sampleUser : User :=
  { uuid := "u0", pictureLarge := "pic", nameFirst := "Ada",
    nameLast := "Lovelace", email := "ada@example.com" }

/-- A sequence of successful `fetchUsers` invocations, each appending the
batch its response carried. -/
def runFetches (batches : List (List User)) (s : FeedState) : FeedState :=
  batches.foldl (fun st b => (fetchUsers (Except.ok b) st).state) s

/-- After any sequence of successful invocations the accumulated length
grows by the sum of the batch lengths. -/
theorem runFetches_length (batches : List (List User)) (s : FeedState) :
    (runFetches batches s).users.length =
      s.users.length + (batches.map List.length).sum := by
  induction batches generalizing s with
  | nil => simp [runFetches]
  | cons b bs ih =>
      have hstep : runFetches (b :: bs) s =
          runFetches bs (fetchUsers (Except.ok b) s).state := rfl
      rw [hstep, ih]
      simp [fetchUsers]
      omega

/-- Claim C2: starting from the empty accumulated sequence, after `N`
successful invocations each receiving a full batch of ten records, the
sequence has length exactly `N * 10`. -/
theorem C2_length (batches : List (List User))
    (h : ∀ b ∈ batches, b.length = batchSize) :
    (runFetches batches initState).users.length =
      batches.length * batchSize := by
  rw [runFetches_length]
  have hmap : batches.map List.length = List.replicate batches.length batchSize := by
    induction batches with
    | nil => simp
    | cons b bs ih =>
        simp only [List.map_cons, List.length_cons, List.replicate_succ]
        rw [h b (List.mem_cons_self b bs), ih fun x hx => h x (List.mem_cons_of_mem b hx)]
  rw [hmap]
  simp [initState, List.sum_replicate, Nat.mul_comm]

/-- Witness for C2 at two concrete full batches. -/
theorem C2_length_witness :
    (runFetches [List.replicate 10 sampleUser, List.replicate 10 sampleUser]
        initState).users.length =
      [List.replicate 10 sampleUser, List.replicate 10 sampleUser].length *
        batchSize :=
  C2_length [List.replicate 10 sampleUser, List.replicate 10 sampleUser]
    (by decide)

/-- Claim C3: the accumulated sequence is append-only and order-preserving:
a successful invocation leaves every previously fetched record unchanged in
its original position (the old sequence is a prefix of the new one), adds
the new records at the end, and retains duplicates (per-record occurrence
counts add up, with no deduplication). -/
theorem C3_append_only (s : FeedState) (batch : List User) :
    (fetchUsers (Except.ok batch) s).state.users = s.users ++ batch ∧
    ((fetchUsers (Except.ok batch) s).state.users).take s.users.length =
      s.users ∧
    ∀ u : User, ((fetchUsers (Except.ok batch) s).state.users).count u =
      s.users.count u + batch.count u := by
  refine ⟨rfl, ?_, ?_⟩
  · simp [fetchUsers]
  · intro u
    simp [fetchUsers, List.count_append]

/-- Claim C4: a failing network call or parse inside an invocation is
unhandled: the rejection propagates out of `fetchUsers`, the loading flag
is left `true`, and the accumulated sequence is unchanged; the trace stops
after the flag was set and the request issued. -/
theorem C4_failure (s : FeedState) (e : String) :
    (fetchUsers (Except.error e) s).rejection = some e ∧
    (fetchUsers (Except.error e) s).state.loading = true ∧
    (fetchUsers (Except.error e) s).state.users = s.users ∧
    (fetchUsers (Except.error e) s).events =
      [Event.setLoading true, Event.request apiURL] :=
  ⟨rfl, rfl, rfl, rfl⟩

/-- Global system state for reasoning about asynchronous invocations: the
component state plus the number of `fetchUsers` network calls currently in
flight. -/
structure SysState where
  users : List User
  loading : Bool
  inFlight : Nat
  deriving DecidableEq, Repr

/-- The system state at mount time: empty sequence, flag off, no call in
flight. -/
def initSys : SysState := { users := [], loading := false, inFlight := 0 }

/-- One event-loop step of the system.  `start` is the synchronous prefix
of a `fetchUsers` invocation (flag set, request issued); `complete` is a
successful resolution (records appended, flag cleared); `fail` is a
rejected call, which runs none of the remaining statements, so it changes
neither the flag nor the sequence. -/
inductive Step : SysState → SysState → Prop where
  | start (s : SysState) :
      Step s { users := s.users, loading := true, inFlight := s.inFlight + 1 }
  | complete (s : SysState) (batch : List User) (h : 0 < s.inFlight) :
      Step s { users := s.users ++ batch, loading := false,
               inFlight := s.inFlight - 1 }
  | fail (s : SysState) (h : 0 < s.inFlight) :
      Step s { users := s.users, loading := s.loading,
               inFlight := s.inFlight - 1 }

/-- States reachable from mount. -/
inductive Reachable : SysState → Prop where
  | init : Reachable initSys
  | step {s t : SysState} : Reachable s → Step s t → Reachable t

/-- One event-loop step in which no invocation ever fails. -/
inductive StepOk : SysState → SysState → Prop where
  | start (s : SysState) :
      StepOk s { users := s.users, loading := true, inFlight := s.inFlight + 1 }
  | complete (s : SysState) (batch : List User) (h : 0 < s.inFlight) :
      StepOk s { users := s.users ++ batch, loading := false,
                 inFlight := s.inFlight - 1 }

/-- States reachable from mount when every resolved invocation succeeded. -/
inductive ReachableOk : SysState → Prop where
  | init : ReachableOk initSys
  | step {s t : SysState} : ReachableOk s → StepOk s t → ReachableOk t

/-- Claim C5 counterexample: the claim that the loading flag is never true
without an outstanding fetch fails on the code.  One invocation whose
network call rejects reaches a state with the flag stuck at `true` and no
call in flight. -/
theorem C5_stuck_loading_cex :
    Reachable { users := [], loading := true, inFlight := 0 } ∧
    ({ users := [], loading := true, inFlight := 0 } : SysState).loading = true ∧
    ({ users := [], loading := true, inFlight := 0 } : SysState).inFlight = 0 := by
  refine ⟨?_, rfl, rfl⟩
  have h1 : Reachable { users := [], loading := true, inFlight := 1 } :=
    Reachable.step Reachable.init (Step.start initSys)
  exact Reachable.step h1
    (Step.fail { users := [], loading := true, inFlight := 1 } (by decide))

/-- Claim C5, amended: in every state reachable while all resolved
invocations succeeded, the loading flag is true only while at least one
network call is in flight; a failed invocation breaks this by leaving the
flag true with no call outstanding. -/
theorem C5_success_only (s : SysState) (h : ReachableOk s) :
    s.loading = true → 0 < s.inFlight := by
  induction h with
  | init => intro hl; exact absurd hl (by decide)
  | step hr hs ih =>
      intro hl
      cases hs with
      | start => exact Nat.succ_pos _
      | complete batch hf => exact absurd hl (by simp)

/-- Witness for the amended C5 at the state just after one invocation
started. -/
theorem C5_success_only_witness :
    0 < ({ users := [], loading := true, inFlight := 1 } : SysState).inFlight :=
  C5_success_only { users := [], loading := true, inFlight := 1 }
    (ReachableOk.step ReachableOk.init (StepOk.start initSys)) rfl

/-- An intersection-observer entry, restricted to the field the callback
reads. -/
structure Entry where
  isIntersecting : Bool
  deriving DecidableEq, Repr

/-- `handleObserver` from `UserFeed.tsx`: destructures the first delivered
entry and invokes `fetchUsers` exactly when it is intersecting.  The value
is the number of loader invocations; `none` models the TypeError thrown
when the entry list is empty (destructuring yields `undefined`). -/
def handleObserver (entries : List Entry) : Option Nat :=
  match entries with
  | [] => none
  | entry :: _ => some (if entry.isIntersecting then 1 else 0)

/-- Claim C6: for every intersection event delivered to the callback, the
loader is invoked exactly once when the observed entry is intersecting and
zero times otherwise — in particular at most once. -/
theorem C6_at_most_once (entry : Entry) (rest : List Entry) :
    handleObserver (entry :: rest) =
      some (if entry.isIntersecting then 1 else 0) ∧
    (if entry.isIntersecting then (1 : Nat) else 0) ≤ 1 := by
  refine ⟨rfl, ?_⟩
  cases entry.isIntersecting <;> simp

/-- A node of the rendered output: a user card (recording whether it
carries `lastUserElementRef`) or the trailing loading indicator text. -/
inductive VNode where
  | card (u : User) (hasRef : Bool)
  | loadingText
  deriving DecidableEq, Repr

/-- The JSX returned by `UserFeed`: one card per user in order, with the
ref attached exactly at the last index, followed by the loading indicator
when the flag is set. -/
def render (s : FeedState) : List VNode :=
  (s.users.enum.map fun p => VNode.card p.2 (p.1 == s.users.length - 1)) ++
    (if s.loading then [VNode.loadingText] else [])

/-- Whether a rendered node is a user card. -/
def isCard : VNode → Bool
  | VNode.card _ _ => true
  | VNode.loadingText => false

/-- Claim C7: the rendered output contains exactly one card per record in
the accumulated sequence, and the loading indicator appears exactly when
the loading flag is set. -/
theorem C7_render (s : FeedState) :
    (render s).countP isCard = s.users.length ∧
    (VNode.loadingText ∈ render s ↔ s.loading = true) := by
  constructor
  · rw [render, List.countP_append, List.countP_map]
    have h1 : s.users.enum.countP
        (isCard ∘ fun p => VNode.card p.2 (p.1 == s.users.length - 1)) =
        s.users.enum.length := by
      rw [List.countP_eq_length]
      intro a _
      rfl
    rw [h1, List.enum_length]
    cases s.loading <;> simp [isCard]
  · rw [render]
    constructor
    · intro hm
      rcases List.mem_append.mp hm with h | h
      · rcases List.mem_map.mp h with ⟨p, _, hp⟩
        exact absurd hp (by simp)
      · cases hl : s.loading with
        | true => rfl
        | false => rw [hl] at h; simp at h
    · intro hl
      refine List.mem_append.mpr (Or.inr ?_)
      rw [hl]
      simp

/-- The `lastUserElementRef` DOM ref after a render of state `s`: the index
of the card it is attached to, or `none` when no card is rendered. -/
def lastUserElementRef (s : FeedState) : Option Nat :=
  if s.users.isEmpty then none else some (s.users.length - 1)

/-- The observer set up by the effect keyed on `[users, handleObserver]`:
any previous observer is disconnected, a fresh one is created, and it
observes the current last-card ref when one exists.  The value is the set
of observed targets of the new observer; the previous observer's targets
(`prev`) do not survive. -/
def observerEffect (_prev : Option (List Nat)) (s : FeedState) : List Nat :=
  match lastUserElementRef s with
  | none => []
  | some r => [r]

/-- Claim C8: whenever the accumulated sequence changes, the effect drops
any previous observation (the result does not depend on it) and attaches
the observer to the node that is currently the last rendered card. -/
theorem C8_reattach (prev prev' : Option (List Nat)) (s : FeedState)
    (h : s.users ≠ []) :
    observerEffect prev s = observerEffect prev' s ∧
    observerEffect prev s = [s.users.length - 1] := by
  have he : s.users.isEmpty = false := by
    cases hu : s.users with
    | nil => exact absurd hu h
    | cons a l => rfl
  constructor <;> simp [observerEffect, lastUserElementRef, he]

/-- Witness for C8 at a single-card state with and without a previous
observer. -/
theorem C8_reattach_witness :
    observerEffect none { users := [sampleUser], loading := false } =
      observerEffect (some [0]) { users := [sampleUser], loading := false } ∧
    observerEffect none { users := [sampleUser], loading := false } =
      [[sampleUser].length - 1] :=
  C8_reattach none (some [0]) { users := [sampleUser], loading := false }
    (List.cons_ne_nil sampleUser [])

/-- Claim C9: `fetchUsers` has no concurrency guard: its entire result —
new state, effect trace, and propagated rejection — is independent of the
prior value of the loading flag, and the request is issued even from a
state where a fetch is already outstanding (`loading = true`). -/
theorem C9_no_guard (u : List User) (b b' : Bool)
    (resp : Except String (List User)) :
    fetchUsers resp { users := u, loading := b } =
      fetchUsers resp { users := u, loading := b' } ∧
    Event.request apiURL ∈ (fetchUsers resp { users := u, loading := true }).events := by
  constructor
  · cases resp <;> rfl
  · cases resp <;> simp [fetchUsers]

/-- Count of network requests occurring in an effect trace. -/
def countRequests (t : List Event) : Nat :=
  t.countP fun e =>
    match e with
    | Event.request _ => true
    | _ => false

/-- The mount-time effect (`useEffect` with empty dependency list): from
the initial state it invokes `fetchUsers` once. -/
def mount (resp : Except String (List User)) : FetchResult :=
  fetchUsers resp initState

/-- Claim C10: on mount, before any intersection event can occur (no card
exists yet, so the ref observes nothing), the loader is invoked exactly
once — its trace contains exactly one network request — and a full first
batch of ten leaves the sequence at length ten. -/
theorem C10_initial_fetch (batch : List User) :
    countRequests (mount (Except.ok batch)).events = 1 ∧
    lastUserElementRef initState = none ∧
    (batch.length = batchSize →
      (mount (Except.ok batch)).state.users.length = batchSize) := by
  refine ⟨rfl, rfl, ?_⟩
  intro h
  simp [mount, fetchUsers, initState, h]

/-- Witness for C10 at a concrete full batch. -/
theorem C10_initial_fetch_witness :
    (List.replicate 10 sampleUser).length = batchSize ∧
    (mount (Except.ok (List.replicate 10 sampleUser))).state.users.length =
      batchSize :=
  ⟨by decide, (C10_initial_fetch (List.replicate 10 sampleUser)).2.2 (by decide)⟩
